import Mathlib

/-!
Verification of `bulk_edit_custom_fields.py`.

The Python program searches a Jira instance for issues matching a JQL query
(paginating with the `/rest/api/3/search/jql` endpoint), deduplicates results
across pages, validates the source custom field against the pattern
`S-` followed by 5 or 6 decimal digits, and copies validated values into the
target list field.

The embedding below models the program shallowly:
  * the remote Issue Store is an abstract function from a request
    `(startAt, maxResults)` to an HTTP response (status, body, issues, total);
  * the fetch loop of `search_issues_v3` (lines 84-168) is a fuel-indexed
    recursion over an explicit state record mirroring the Python locals
    (`all_issues`, `seen_keys`, `start_at`, `page_size`);
  * the trace of fetch requests the code logs (`Fetching batch: startAt=...,
    maxResults=...` followed by `Fetched ... issues in this batch`) is
    reified as a list of `FetchCall` records;
  * `process_issue` (lines 221-300) additionally returns the list of
    mutations it issued against the store (`issue.update` calls, whether or
    not they succeed), so that frame conditions such as dry-run purity are
    statable; the abstract argument `mutateOk` tells whether a given
    `issue.update` call succeeds or raises `JIRAError`;
  * Python truthiness tests (`if max_results:`, `if not source_value:`,
    `if current_target:`) are modelled by explicit `pyTruthy*` predicates.
-/

/-- A Jira issue as the script sees it: its key, the source custom field
`customfield_10213` (a short-text field, absent or a string) and the target
custom field `customfield_10683` (a labels field, absent or a list of
strings). -/
structure Issue where
  key : String
  source : Option String
  target : Option (List String)
deriving DecidableEq

/-- Response of one GET against the search endpoint: HTTP status, response
body text, the decoded `issues` array and the decoded `total` field
(`data.get('total', 0)`, so 0 doubles as "unknown"). -/
structure HttpResponse where
  status : Nat
  body : String
  issues : List Issue
  total : Nat

/-- The Issue Store: a function from the request parameters `startAt` and
`maxResults` to the response.  (The JQL string and the field list are fixed
for the whole run, so they are omitted from the request.) -/
abbrev Store : Type := Nat → Nat → HttpResponse

/-- Models the `JIRAError` raised at lines 104-108: its message interpolates
the HTTP status, the request URL (identified here by the request parameters
`startAt` and `maxResults`) and the response body. -/
structure JiraError where
  status : Nat
  startAt : Nat
  maxResults : Nat
  body : String
deriving DecidableEq

/-- One entry of the fetch trace: the `startAt` and `maxResults` the request
carried (logged at line 100) and the number of issues the response returned
(logged at lines 145-147). -/
structure FetchCall where
  startAt : Nat
  maxResults : Nat
  returned : Nat
deriving DecidableEq

/-- The mutable locals of `search_issues_v3` (lines 76-79), plus the running
duplicate count (logged at lines 130-141) and the fetch trace. -/
structure SearchState where
  allIssues : List Issue
  seenKeys : List String
  startAt : Nat
  pageSize : Nat
  dupCount : Nat
  calls : List FetchCall
deriving DecidableEq

/-- Initial state: `all_issues = []`, `seen_keys = set()`, `start_at = 0`,
`page_size = 100` (lines 76-79). -/
def initState : SearchState :=
  { allIssues := [], seenKeys := [], startAt := 0, pageSize := 100,
    dupCount := 0, calls := [] }

/-- What `search_issues_v3` delivers on normal termination: the deduplicated
issue list it returns, the total duplicate count it logged, and the fetch
trace. -/
structure SearchResult where
  issues : List Issue
  dupCount : Nat
  calls : List FetchCall
deriving DecidableEq

/-- Outcome of the fetch loop: normal return, a raised `JIRAError` (with the
fetch trace up to and including the failing request), or fuel exhaustion
(the Python loop is `while True`, so the embedding is fuel-indexed). -/
inductive SearchOutcome where
  | ok : SearchResult → SearchOutcome
  | transportError : JiraError → List FetchCall → SearchOutcome
  | outOfFuel : SearchOutcome
deriving DecidableEq

/-- Python truthiness of the `max_results : Optional[int]` argument:
`None` and `0` are falsy (`if max_results:` at lines 87 and 163). -/
def pyTruthyNat : Option Nat → Bool
  | none => false
  | some n => n != 0

/-- One step of the duplicate-detection loop over a batch (lines 125-138):
a key already in `seen_keys` only bumps the duplicate count (`continue`);
a new key is appended to `all_issues` and added to `seen_keys`. -/
def dedupStep (st : SearchState) (issue : Issue) : SearchState :=
  if issue.key ∈ st.seenKeys then
    { st with dupCount := st.dupCount + 1 }
  else
    { st with allIssues := st.allIssues ++ [issue],
              seenKeys := issue.key :: st.seenKeys }

/-- Lines 85-91: when `max_results` is truthy, compute
`remaining = max_results - len(all_issues)`; break out of the loop when
`remaining <= 0` (returning `none`), else set
`page_size = min(100, remaining)`. -/
def capCheck (max_results : Option Nat) (st : SearchState) : Option SearchState :=
  if pyTruthyNat max_results then
    if max_results.getD 0 ≤ st.allIssues.length then none
    else some { st with pageSize := min 100 (max_results.getD 0 - st.allIssues.length) }
  else some st

/-- State after logging the request of this iteration (line 100): the
trace grows by one `FetchCall`. -/
def st2Of (st1 : SearchState) (resp : HttpResponse) : SearchState :=
  { st1 with calls := st1.calls ++ [⟨st1.startAt, st1.pageSize, resp.issues.length⟩] }

/-- State after the per-batch dedup loop of lines 125-138. -/
def st3Of (st1 : SearchState) (resp : HttpResponse) : SearchState :=
  resp.issues.foldl dedupStep (st2Of st1 resp)

/-- State after `start_at += len(issues_data)` (line 150). -/
def st4Of (st1 : SearchState) (resp : HttpResponse) : SearchState :=
  { st3Of st1 resp with startAt := (st3Of st1 resp).startAt + resp.issues.length }

/-- The value `search_issues_v3` returns when the loop breaks in the state
`st`: the collected issues, with the duplicate count and fetch trace. -/
def okOf (st : SearchState) : SearchOutcome :=
  .ok ⟨st.allIssues, st.dupCount, st.calls⟩

/-- The `while True` fetch loop of `search_issues_v3` (lines 84-165),
fuel-indexed.  Mirrors the Python statement for statement: cap check
(lines 85-91), GET request (line 101), status check (lines 103-108),
per-batch dedup (lines 124-141), `start_at += len(issues_data)` (line 150),
then the three stop conditions in source order (lines 153, 158, 163);
`fetched_count` of line 143 is `(st3Of st1 resp).allIssues.length`. -/
def searchLoop (store : Store) (max_results : Option Nat) :
    Nat → SearchState → SearchOutcome
  | 0, _ => .outOfFuel
  | fuel + 1, st =>
    match capCheck max_results st with
    | none => .ok ⟨st.allIssues, st.dupCount, st.calls⟩
    | some st1 =>
      let resp := store st1.startAt st1.pageSize
      if resp.status ≠ 200 then
        .transportError ⟨resp.status, st1.startAt, st1.pageSize, resp.body⟩
          (st2Of st1 resp).calls
      else if resp.issues.length = 0 then
        okOf (st4Of st1 resp)
      else if 0 < resp.total ∧ resp.total ≤ (st4Of st1 resp).startAt then
        okOf (st4Of st1 resp)
      else if pyTruthyNat max_results ∧
          max_results.getD 0 ≤ (st3Of st1 resp).allIssues.length then
        okOf (st4Of st1 resp)
      else
        searchLoop store max_results fuel (st4Of st1 resp)

/-- `search_issues_v3` (lines 57-168): run the fetch loop from the initial
state. -/
def search_issues_v3 (store : Store) (max_results : Option Nat) (fuel : Nat) :
    SearchOutcome :=
  searchLoop store max_results fuel initState

/-- `SOURCE_FIELD = 'customfield_10213'` (line 42). -/
def SOURCE_FIELD : String := "customfield_10213"

/-- `TARGET_FIELD = 'customfield_10683'` (line 43). -/
def TARGET_FIELD : String := "customfield_10683"

/-- Characters removed by Python `str.strip()` with no argument, restricted
to the ASCII whitespace that can occur here. -/
def isPyWhitespace (c : Char) : Bool :=
  c == ' ' || c == '\t' || c == '\n' || c == '\r'

/-- Python `value.strip()`: drop leading and trailing whitespace. -/
def pyStrip (s : String) : String :=
  String.mk (((s.data.dropWhile isPyWhitespace).reverse.dropWhile isPyWhitespace).reverse)

/-- Acceptance function of the compiled regex
`VALIDATION_PATTERN = re.compile(r'^S-\d{5,6}$')` (line 46), applied with
`.match` on an already anchored pattern: the whole string must be the
literal `S-` followed by 5 or 6 decimal digits. -/
def VALIDATION_PATTERN_accepts (s : String) : Bool :=
  match s.data with
  | c1 :: c2 :: ds =>
      c1 == 'S' && c2 == '-' && ds.all Char.isDigit &&
        (ds.length == 5 || ds.length == 6)
  | _ => false

/-- `validate_value` (lines 171-183): `if not value: return False`, then
match the stripped value against the pattern. -/
def validate_value (value : String) : Bool :=
  if value = "" then false
  else VALIDATION_PATTERN_accepts (pyStrip value)

/-- The `result` dictionary built by `process_issue` (lines 234-240). -/
structure ProcResult where
  key : String
  success : Bool
  message : String
  source_value : Option String
  updated : Bool
deriving DecidableEq

/-- Python truthiness of the source field value (`if not source_value:` at
line 247): `None` and the empty string are falsy. -/
def pyTruthyStr : Option String → Bool
  | none => false
  | some s => s != ""

/-- Python truthiness of the target field value (`if current_target:` at
line 267): `None` and the empty list are falsy. -/
def pyTruthyList : Option (List String) → Bool
  | none => false
  | some l => l != []

/-- A mutation issued against the store: `issue.update(fields={TARGET_FIELD:
new_value})` (line 286), identified by the issue key and the new value. -/
abbrev Mutation : Type := String × List String

/-- `process_issue` (lines 221-300).  `mutateOk key value` tells whether the
`issue.update` call at line 286 succeeds (`true`) or raises `JIRAError`
(`false`; the handler at lines 293-295 turns it into a failed result).
Returns the `result` dictionary together with the list of mutations issued
(attempted) against the store; message texts are abbreviated but
branch-distinct. -/
def process_issue (mutateOk : String → List String → Bool) (issue : Issue)
    (dry_run : Bool) : ProcResult × List Mutation :=
  let result0 : ProcResult :=
    { key := issue.key, success := false, message := "",
      source_value := issue.source, updated := false }
  if pyTruthyStr issue.source = false then
    ({ result0 with message := "No value in " ++ SOURCE_FIELD }, [])
  else
    let cleaned_value := pyStrip (issue.source.getD "")
    if validate_value cleaned_value = false then
      ({ result0 with
          message := "Value " ++ cleaned_value ++ " does not match pattern" }, [])
    else
      let finish : List String → ProcResult × List Mutation := fun new_value =>
        if dry_run then
          ({ result0 with
              success := true
              message := "[DRY RUN] Would update " ++ TARGET_FIELD }, [])
        else if mutateOk issue.key new_value then
          ({ result0 with
              success := true
              updated := true
              message := "Successfully updated " ++ TARGET_FIELD ++ " with " ++ cleaned_value },
            [(issue.key, new_value)])
        else
          ({ result0 with message := "Jira API error" }, [(issue.key, new_value)])
      if pyTruthyList issue.target then
        if cleaned_value ∈ issue.target.getD [] then
          ({ result0 with
              success := true
              message := "Value " ++ cleaned_value ++ " already exists in target field" }, [])
        else
          finish (issue.target.getD [] ++ [cleaned_value])
      else
        finish [cleaned_value]

/-- The `results` counters of `main` (lines 337-342). -/
structure RunCounters where
  processed : Nat
  updated : Nat
  skipped : Nat
  errors : Nat
deriving DecidableEq

/-- Counter accumulation for one processed issue (lines 355-362):
`processed` always increments; `updated` when success and updated;
`skipped` when success without update; `errors` when not success. -/
def countersStep (c : RunCounters) (r : ProcResult) : RunCounters :=
  { processed := c.processed + 1,
    updated := if r.success then (if r.updated then c.updated + 1 else c.updated) else c.updated,
    skipped := if r.success then (if r.updated then c.skipped else c.skipped + 1) else c.skipped,
    errors := if r.success then c.errors else c.errors + 1 }

/-- Fold the counters over all per-issue results of the run. -/
def tally (rs : List ProcResult) : RunCounters :=
  rs.foldl countersStep ⟨0, 0, 0, 0⟩

/-- The `for` loop of `main` (lines 351-362): process each issue in order,
collecting the per-issue results and the mutations issued. -/
def processIssues (mutateOk : String → List String → Bool) (issues : List Issue)
    (dry_run : Bool) : List ProcResult × List Mutation :=
  match issues with
  | [] => ([], [])
  | i :: rest =>
    let pr := process_issue mutateOk i dry_run
    let prs := processIssues mutateOk rest dry_run
    (pr.1 :: prs.1, pr.2 ++ prs.2)

/-- Outcome of `main` (lines 303-384): a normal run delivering the final
counters and the mutations issued, the `sys.exit(1)` taken when any
exception (in particular the fetch-loop `JIRAError`) reaches the
`except` at lines 382-384, or fuel exhaustion of the fetch loop. -/
inductive MainOutcome where
  | done : RunCounters → List Mutation → MainOutcome
  | exitNonZero : MainOutcome
  | outOfFuel : MainOutcome
deriving DecidableEq

/-- The `main` function (lines 303-384): search, then, unless no issue
matched (lines 332-334), process every fetched issue and tally the
counters.  (Named `main_run` because Lean reserves `main` for entry
points.) -/
def main_run (store : Store) (mutateOk : String → List String → Bool)
    (dry_run : Bool) (max_results : Option Nat) (fuel : Nat) : MainOutcome :=
  match search_issues_v3 store max_results fuel with
  | .transportError _ _ => .exitNonZero
  | .outOfFuel => .outOfFuel
  | .ok res =>
    if res.issues.length = 0 then .done ⟨0, 0, 0, 0⟩ []
    else
      let prs := processIssues mutateOk res.issues dry_run
      .done (tally prs.1) prs.2

/-- `ceil(a / b)` on naturals, as used in the pagination bounds. -/
def ceilDiv (a b : Nat) : Nat := (a + b - 1) / b

/-- Injective supply of issue keys for concrete stores. -/
def natKey : Nat → String
  | 0 => ""
  | n + 1 => natKey n ++ "a"

/-- A matching issue with the given key index; its source and target fields
are irrelevant to the fetch-level claims. -/
def mkIssue (n : Nat) : Issue := ⟨natKey n, none, none⟩

/-- The issues with indices `s, s+1, ..., s+l-1`. -/
def idxIssues (s l : Nat) : List Issue :=
  (List.range l).map (fun i => mkIssue (s + i))

/-- The canonical well-behaved store holding `total` matching records with
pairwise distinct keys: a fetch at `startAt` with limit `maxRes` returns the
next `min maxRes (total - startAt)` records (full pages) and always reports
`total`; in particular it returns 0 records at offsets at or past the
total. -/
def fullStore (total : Nat) : Store := fun startAt maxRes =>
  { status := 200, body := "",
    issues := idxIssues startAt (min maxRes (total - startAt)), total := total }

/-- A short-page store: it holds 2 matching records and always reports
`total = 2`, but returns only one record per fetch (the Jira search
contract allows returning fewer records than the requested limit), and
returns 0 records at offsets at or past the reported total. -/
def shortPageStore : Store := fun startAt _ =>
  if startAt < 2 then { status := 200, body := "", issues := [mkIssue startAt], total := 2 }
  else { status := 200, body := "", issues := [], total := 2 }

/-- A store whose second page re-returns the first page's record (the
overlap that a result set shifting between calls produces): offset 0
yields record 0; offset 1 yields records 0 and 1 again; everything later
is empty.  Records carry a valid source value so that processing them
succeeds. -/
def overlapStore : Store := fun startAt _ =>
  if startAt = 0 then
    { status := 200, body := "", issues := [⟨natKey 0, some "S-12345", none⟩], total := 0 }
  else if startAt = 1 then
    { status := 200, body := "",
      issues := [⟨natKey 0, some "S-12345", none⟩, ⟨natKey 1, some "S-12345", none⟩],
      total := 0 }
  else { status := 200, body := "", issues := [], total := 0 }

/-- The spec-side reading of the validation rule: the whitespace-trimmed
value is exactly the literal prefix `S-` followed by 5 or 6 decimal
digits. -/
def specValidValue (v : String) : Prop :=
  ∃ ds : List Char, (pyStrip v).data = 'S' :: '-' :: ds ∧
    (ds.length = 5 ∨ ds.length = 6) ∧ ∀ c ∈ ds, c.isDigit = true

/-- The relation between consecutive fetch requests of an offset-walk run:
the next request's offset is the previous offset advanced by the number of
records the previous fetch actually returned, and the previous fetch
returned at least one record (otherwise the loop would have stopped). -/
def advanceRel (a b : FetchCall) : Prop :=
  b.startAt = a.startAt + a.returned ∧ 1 ≤ a.returned

/-- Dedup invariant of the loop state: every collected issue's key has been
recorded in `seen_keys`, and the collected keys are pairwise distinct. -/
def SeenInv (st : SearchState) : Prop :=
  (∀ i ∈ st.allIssues, i.key ∈ st.seenKeys) ∧ (st.allIssues.map Issue.key).Nodup

/-- Trace invariant of the loop state: consecutive logged requests satisfy
`advanceRel`; the current offset continues the last logged request; before
any request the offset is 0; and the first logged request had offset 0. -/
def CallsInv (st : SearchState) : Prop :=
  List.Chain' advanceRel st.calls ∧
  (∀ c ∈ st.calls.getLast?, st.startAt = c.startAt + c.returned ∧ 1 ≤ c.returned) ∧
  (st.calls = [] → st.startAt = 0) ∧
  (∀ c ∈ st.calls.head?, c.startAt = 0)

/-- Modelled from the spec: no restart-drain paginator exists in
`src/bulk_edit_custom_fields.py` (the script's only fetch loop is the
offset-walk of `search_issues_v3`); the spec describes restart-drain as a
second policy of the 1,079-line repository that must be supported.
Following §4.3 of the spec: every call fetches a batch of up to `pageSize`
records from offset 0 (never advancing an offset, no deduplication state);
every record of the batch is processed, and each successful mutation
removes exactly that record from the result set (the records are returned
in store order, so the batch is the first `pageSize` remaining records and
the rest remain); the walk terminates when a fetch returns an empty batch.
Returns `some (number of fetch calls, records processed in order)`, or
`none` on fuel exhaustion. -/
def restart_drain (pageSize : Nat) : Nat → List Issue → Option (Nat × List Issue)
  | 0, _ => none
  | fuel + 1, recs =>
    let batch := recs.take pageSize
    if batch.isEmpty then some (1, [])
    else
      match restart_drain pageSize fuel (recs.drop pageSize) with
      | none => none
      | some kp => some (kp.1 + 1, batch ++ kp.2)

/-- The `new_value` that `process_issue` writes on the valid-and-not-yet-
present path (lines 265-272): the existing target values with the cleaned
value appended when the target field is truthy, else the singleton. -/
def newValueOf (issue : Issue) : List String :=
  if pyTruthyList issue.target then
    issue.target.getD [] ++ [pyStrip (issue.source.getD "")]
  else [pyStrip (issue.source.getD "")]

/-- A store whose every response is HTTP 500 with body `"boom"`. -/
def errStore : Store := fun _ _ => { status := 500, body := "boom", issues := [], total := 0 }

/-- The `seen_keys` set after the first `n` records of the canonical store
have been collected (as the cons-list the dedup loop builds). -/
def seenOf (n : Nat) : List String := ((List.range n).map natKey).reverse

/-- C5: `validate_value` returns false for empty input, and otherwise
accepts exactly the strings whose whitespace-trimmed form is the literal
`S-` followed by 5 or 6 decimal digits, anchored at both ends.  (Whitespace
-only input falls under the characterization: its trimmed form is empty and
is rejected.) -/
theorem validator_characterization :
    ∀ v : String, validate_value v = true ↔ specValidValue v := by
  intro v
  unfold validate_value
  split
  · rename_i hv
    subst hv
    constructor
    · intro h; exact absurd h (by decide)
    · rintro ⟨ds, h, -, -⟩
      have hempty : (pyStrip "").data = [] := by decide
      rw [hempty] at h
      exact List.noConfusion h
  · unfold VALIDATION_PATTERN_accepts specValidValue
    rcases hd : (pyStrip v).data with - | ⟨c1, - | ⟨c2, ds⟩⟩
    · simp [hd]
    · simp [hd]
    · simp only [hd, Bool.and_eq_true, Bool.or_eq_true, beq_iff_eq, List.all_eq_true,
        decide_eq_true_eq]
      constructor
      · rintro ⟨⟨⟨h1, h2⟩, hdig⟩, hlen⟩
        exact ⟨ds, by rw [h1, h2], hlen, hdig⟩
      · rintro ⟨ds2, heq, hlen, hdig⟩
        obtain ⟨e1, e2, e3⟩ : c1 = 'S' ∧ c2 = '-' ∧ ds = ds2 := by
          injection heq with a b
          injection b with b c
          exact ⟨a, b, c⟩
        subst e1; subst e2; subst e3
        exact ⟨⟨⟨rfl, rfl⟩, hdig⟩, hlen⟩

@[simp] lemma dedupStep_startAt (st : SearchState) (i : Issue) :
    (dedupStep st i).startAt = st.startAt := by
  unfold dedupStep; split <;> rfl

@[simp] lemma dedupStep_pageSize (st : SearchState) (i : Issue) :
    (dedupStep st i).pageSize = st.pageSize := by
  unfold dedupStep; split <;> rfl

@[simp] lemma dedupStep_calls (st : SearchState) (i : Issue) :
    (dedupStep st i).calls = st.calls := by
  unfold dedupStep; split <;> rfl

@[simp] lemma foldl_dedupStep_startAt (b : List Issue) (st : SearchState) :
    (b.foldl dedupStep st).startAt = st.startAt := by
  induction b generalizing st with
  | nil => rfl
  | cons i rest ih => simp [List.foldl_cons, ih]

@[simp] lemma foldl_dedupStep_pageSize (b : List Issue) (st : SearchState) :
    (b.foldl dedupStep st).pageSize = st.pageSize := by
  induction b generalizing st with
  | nil => rfl
  | cons i rest ih => simp [List.foldl_cons, ih]

@[simp] lemma foldl_dedupStep_calls (b : List Issue) (st : SearchState) :
    (b.foldl dedupStep st).calls = st.calls := by
  induction b generalizing st with
  | nil => rfl
  | cons i rest ih => simp [List.foldl_cons, ih]

lemma dedupStep_seenInv (st : SearchState) (i : Issue) (h : SeenInv st) :
    SeenInv (dedupStep st i) := by
  obtain ⟨hmem, hnd⟩ := h
  unfold dedupStep SeenInv
  split
  · exact ⟨hmem, hnd⟩
  · rename_i hnew
    refine ⟨?_, ?_⟩
    · intro j hj
      simp only [List.mem_append, List.mem_singleton] at hj
      rcases hj with hj | hj
      · exact List.mem_cons_of_mem _ (hmem j hj)
      · subst hj; exact List.mem_cons_self _ _
    · simp only [List.map_append, List.map_cons, List.map_nil]
      rw [List.nodup_append]
      refine ⟨hnd, List.nodup_singleton _, ?_⟩
      intro k hk hk2
      simp only [List.mem_singleton] at hk2
      subst hk2
      obtain ⟨j, hj, hkey⟩ := List.mem_map.mp hk
      exact hnew (hkey ▸ hmem j hj)

lemma foldl_dedupStep_seenInv (b : List Issue) (st : SearchState) (h : SeenInv st) :
    SeenInv (b.foldl dedupStep st) := by
  induction b generalizing st with
  | nil => exact h
  | cons i rest ih => exact ih _ (dedupStep_seenInv _ _ h)

@[simp] lemma capCheck_none_eq (st : SearchState) : capCheck none st = some st := rfl

lemma capCheck_fields (mr : Option Nat) (st st1 : SearchState)
    (h : capCheck mr st = some st1) :
    st1.allIssues = st.allIssues ∧ st1.seenKeys = st.seenKeys ∧
    st1.startAt = st.startAt ∧ st1.dupCount = st.dupCount ∧ st1.calls = st.calls := by
  unfold capCheck at h
  split at h
  · split at h
    · exact absurd h (by simp)
    · injection h with h
      subst h
      exact ⟨rfl, rfl, rfl, rfl, rfl⟩
  · injection h with h
    subst h
    exact ⟨rfl, rfl, rfl, rfl, rfl⟩

lemma callsInv_extend (st : SearchState) (ps L : Nat) (h : CallsInv st) :
    List.Chain' advanceRel (st.calls ++ [⟨st.startAt, ps, L⟩]) ∧
    (∀ c ∈ (st.calls ++ [(⟨st.startAt, ps, L⟩ : FetchCall)]).head?, c.startAt = 0) := by
  obtain ⟨hchain, hlast, hnil, hhead⟩ := h
  constructor
  · rw [List.chain'_append]
    refine ⟨hchain, List.chain'_singleton _, ?_⟩
    intro x hx y hy
    simp only [List.head?_cons, Option.mem_def, Option.some.injEq] at hy
    subst hy
    unfold advanceRel
    obtain ⟨h1, h2⟩ := hlast x hx
    exact ⟨h1, h2⟩
  · intro c hc
    cases hcs : st.calls with
    | nil =>
      rw [hcs] at hc
      simp only [List.nil_append, List.head?_cons, Option.mem_def, Option.some.injEq] at hc
      subst hc
      exact hnil hcs
    | cons a rest =>
      rw [hcs] at hc
      simp only [List.cons_append, List.head?_cons, Option.mem_def, Option.some.injEq] at hc
      subst hc
      exact hhead a (by rw [hcs]; rfl)

lemma callsInv_shift (st st' : SearchState) (ps L : Nat)
    (hc : st'.calls = st.calls ++ [⟨st.startAt, ps, L⟩])
    (hs : st'.startAt = st.startAt + L) (hL : 1 ≤ L) (h : CallsInv st) :
    CallsInv st' := by
  obtain ⟨hchain, hhead⟩ := callsInv_extend st ps L h
  refine ⟨hc ▸ hchain, ?_, ?_, hc ▸ hhead⟩
  · intro c hcmem
    rw [hc, List.getLast?_append_cons] at hcmem
    simp only [List.getLast?_singleton, Option.mem_def, Option.some.injEq] at hcmem
    subst hcmem
    exact ⟨hs, hL⟩
  · intro hne
    rw [hc] at hne
    exact absurd hne (by simp)

@[simp] lemma st4Of_startAt (st1 : SearchState) (resp : HttpResponse) :
    (st4Of st1 resp).startAt = st1.startAt + resp.issues.length := by
  simp [st4Of, st3Of, st2Of]

@[simp] lemma st4Of_calls (st1 : SearchState) (resp : HttpResponse) :
    (st4Of st1 resp).calls
      = st1.calls ++ [⟨st1.startAt, st1.pageSize, resp.issues.length⟩] := by
  simp [st4Of, st3Of, st2Of]

@[simp] lemma st4Of_pageSize (st1 : SearchState) (resp : HttpResponse) :
    (st4Of st1 resp).pageSize = st1.pageSize := by
  simp [st4Of, st3Of, st2Of]

lemma st4Of_allIssues (st1 : SearchState) (resp : HttpResponse) :
    (st4Of st1 resp).allIssues = (st3Of st1 resp).allIssues := rfl

lemma seenInv_st4Of (st1 : SearchState) (resp : HttpResponse) (h : SeenInv st1) :
    SeenInv (st4Of st1 resp) := by
  have h2 : SeenInv (st2Of st1 resp) := h
  have h3 : SeenInv (st3Of st1 resp) := foldl_dedupStep_seenInv _ _ h2
  exact h3

/-- Core invariant of the offset-walk fetch loop: whenever the loop
terminates normally, the returned issues carry pairwise distinct keys, the
logged fetch requests advance exactly by the number of records the previous
fetch returned (each non-final fetch returning at least one record), and
the first request was at offset 0. -/
lemma searchLoop_ok_inv (store : Store) (mr : Option Nat) :
    ∀ (fuel : Nat) (st : SearchState), SeenInv st → CallsInv st →
    ∀ res, searchLoop store mr fuel st = .ok res →
      (res.issues.map Issue.key).Nodup ∧ List.Chain' advanceRel res.calls ∧
      (∀ c ∈ res.calls.head?, c.startAt = 0) := by
  intro fuel
  induction fuel with
  | zero =>
    intro st _ _ res h
    exact absurd h (by simp [searchLoop])
  | succ fuel ih =>
    intro st hseen hcalls res h
    simp only [searchLoop, okOf] at h
    split at h
    · injection h with h
      subst h
      exact ⟨hseen.2, hcalls.1, hcalls.2.2.2⟩
    · rename_i st1 hcap
      obtain ⟨hA, hS, hSA, hD, hC⟩ := capCheck_fields mr st st1 hcap
      split at h
      · exact absurd h (by simp)
      · have hseen1 : SeenInv st1 := by
          unfold SeenInv at hseen ⊢
          rw [hA, hS]
          exact hseen
        have hseen4 : SeenInv (st4Of st1 (store st1.startAt st1.pageSize)) :=
          seenInv_st4Of _ _ hseen1
        have hcallsE := callsInv_extend st st1.pageSize
          (store st1.startAt st1.pageSize).issues.length hcalls
        have hc4 : (st4Of st1 (store st1.startAt st1.pageSize)).calls
            = st.calls ++ [⟨st.startAt, st1.pageSize,
                (store st1.startAt st1.pageSize).issues.length⟩] := by
          rw [st4Of_calls, hC, hSA]
        split at h
        · injection h with h
          subst h
          exact ⟨hseen4.2, by rw [hc4]; exact hcallsE.1, by rw [hc4]; exact hcallsE.2⟩
        · split at h
          · injection h with h
            subst h
            exact ⟨hseen4.2, by rw [hc4]; exact hcallsE.1, by rw [hc4]; exact hcallsE.2⟩
          · split at h
            · injection h with h
              subst h
              exact ⟨hseen4.2, by rw [hc4]; exact hcallsE.1, by rw [hc4]; exact hcallsE.2⟩
            · rename_i hlen hc1 hc2
              have hL : 1 ≤ (store st1.startAt st1.pageSize).issues.length :=
                Nat.one_le_iff_ne_zero.mpr hlen
              have hs4 : (st4Of st1 (store st1.startAt st1.pageSize)).startAt
                  = st.startAt + (store st1.startAt st1.pageSize).issues.length := by
                rw [st4Of_startAt, hSA]
              have hcalls4 : CallsInv (st4Of st1 (store st1.startAt st1.pageSize)) :=
                callsInv_shift st _ st1.pageSize _ hc4 hs4 hL hcalls
              exact ih _ hseen4 hcalls4 res h

/-- Each loop iteration makes exactly one fetch request, so a run that
terminates normally with `fuel` iterations available has logged at most
`fuel` new requests. -/
lemma searchLoop_ok_calls_le (store : Store) (mr : Option Nat) :
    ∀ (fuel : Nat) (st : SearchState) (res : SearchResult),
      searchLoop store mr fuel st = .ok res →
      res.calls.length ≤ st.calls.length + fuel := by
  intro fuel
  induction fuel with
  | zero =>
    intro st res h
    exact absurd h (by simp [searchLoop])
  | succ fuel ih =>
    intro st res h
    simp only [searchLoop, okOf] at h
    split at h
    · injection h with h
      subst h
      dsimp only
      omega
    · rename_i st1 hcap
      obtain ⟨-, -, -, -, hC⟩ := capCheck_fields mr st st1 hcap
      split at h
      · exact absurd h (by simp)
      · have hlen4 : (st4Of st1 (store st1.startAt st1.pageSize)).calls.length
            = st.calls.length + 1 := by
          rw [st4Of_calls, hC]
          simp
        split at h
        · injection h with h
          subst h
          dsimp only
          omega
        · split at h
          · injection h with h
            subst h
            dsimp only
            omega
          · split at h
            · injection h with h
              subst h
              dsimp only
              omega
            · have := ih _ _ h
              omega

/-- Consecutive-advance trace relation implies strictly increasing offsets,
hence no offset is ever requested twice. -/
lemma chain'_advanceRel_pairwise (l : List FetchCall)
    (h : List.Chain' advanceRel l) :
    (l.map FetchCall.startAt).Pairwise (· < ·) := by
  have h2 : List.Chain' (· < ·) (l.map FetchCall.startAt) := by
    rw [List.chain'_map]
    refine h.imp ?_
    intro a b hab
    obtain ⟨h1, h2⟩ := hab
    omega
  exact List.chain'_iff_pairwise.mp h2

@[simp] lemma idxIssues_length (s l : Nat) : (idxIssues s l).length = l := by
  simp [idxIssues]

@[simp] lemma fullStore_status (total s l : Nat) :
    (fullStore total s l).status = 200 := rfl

@[simp] lemma fullStore_total_eq (total s l : Nat) :
    (fullStore total s l).total = total := rfl

@[simp] lemma fullStore_issues_length (total s l : Nat) :
    (fullStore total s l).issues.length = min l (total - s) := by
  simp [fullStore]

lemma seenInv_init : SeenInv initState := by
  constructor <;> simp [initState, SeenInv]

lemma callsInv_init : CallsInv initState := by
  refine ⟨List.chain'_nil, ?_, fun _ => rfl, ?_⟩ <;>
    intro c hc <;> simp [initState] at hc

/-- Against the canonical full-page store holding `total` records, the
offset-walk terminates normally whenever the remaining record count is
covered by `fuel` pages of 100. -/
lemma fullStore_none_terminates (total : Nat) :
    ∀ (fuel : Nat) (st : SearchState), st.pageSize = 100 →
      st.startAt < total → total ≤ st.startAt + fuel * 100 →
      ∃ res, searchLoop (fullStore total) none fuel st = .ok res := by
  intro fuel
  induction fuel with
  | zero =>
    intro st _ h1 h2
    omega
  | succ fuel ih =>
    intro st hps h1 h2
    simp only [searchLoop, capCheck_none_eq, okOf]
    have hL : (fullStore total st.startAt st.pageSize).issues.length
        = min 100 (total - st.startAt) := by
      rw [hps, fullStore_issues_length]
    have h200 : ¬((fullStore total st.startAt st.pageSize).status ≠ 200) := by simp
    rw [if_neg h200, if_neg (by omega : ¬((fullStore total st.startAt st.pageSize).issues.length = 0))]
    by_cases hstop : total ≤ st.startAt + (fullStore total st.startAt st.pageSize).issues.length
    · rw [if_pos ⟨by simp; omega, by rw [st4Of_startAt, fullStore_total_eq]; exact hstop⟩]
      exact ⟨_, rfl⟩
    · rw [if_neg (by rw [st4Of_startAt, fullStore_total_eq]; intro hcon; exact hstop hcon.2),
        if_neg (by simp [pyTruthyNat])]
      exact ih (st4Of st (fullStore total st.startAt st.pageSize))
        (by rw [st4Of_pageSize, hps])
        (by rw [st4Of_startAt]; omega)
        (by rw [st4Of_startAt]; omega)

/-- C1 counterexample: `shortPageStore` returns 0 records at every offset
at or past its reported total of 2 (and one record per fetch below it) —
satisfying the claim's store assumption — yet the offset-walk performs 2
fetch calls, exceeding the claimed bound `ceil(reportedTotal / pageSize) =
ceil(2 / 100) = 1`. -/
theorem offset_walk_bound_counterexample :
    search_issues_v3 shortPageStore none 10 =
      .ok ⟨[mkIssue 0, mkIssue 1], 0, [⟨0, 100, 1⟩, ⟨1, 100, 1⟩]⟩ ∧
    ceilDiv 2 100 = 1 ∧
    ¬ ([(⟨0, 100, 1⟩ : FetchCall), ⟨1, 100, 1⟩].length ≤ ceilDiv 2 100) := by
  refine ⟨by decide, by decide, by decide⟩

/-- C1 (amended): in every normally terminating run of the fetch loop the
requested offsets start at 0 and advance by exactly the number of records
returned (each non-final fetch returning at least one), so offsets are
strictly increasing and never revisited; and against a store that serves
full pages — `min(pageSize, reportedTotal - offset)` records below the
total, 0 at or past it — the loop terminates within
`ceil(reportedTotal / pageSize)` fetch calls (page size 100).  For a store
merely guaranteed to return 0 records at offsets ≥ reportedTotal, the
`ceil` bound does not hold (see the counterexample); full pages are what
forces it. -/
theorem offset_walk_termination_amended :
    (∀ (store : Store) (mr : Option Nat) (fuel : Nat) (res : SearchResult),
        search_issues_v3 store mr fuel = .ok res →
          List.Chain' advanceRel res.calls ∧
          (∀ c ∈ res.calls.head?, c.startAt = 0) ∧
          (res.calls.map FetchCall.startAt).Pairwise (· < ·)) ∧
    (∀ total : Nat, 0 < total →
        ∃ res, search_issues_v3 (fullStore total) none (ceilDiv total 100) = .ok res ∧
          res.calls.length ≤ ceilDiv total 100) := by
  constructor
  · intro store mr fuel res h
    obtain ⟨-, hchain, hhead⟩ :=
      searchLoop_ok_inv store mr fuel initState seenInv_init callsInv_init res h
    exact ⟨hchain, hhead, chain'_advanceRel_pairwise _ hchain⟩
  · intro total htotal
    obtain ⟨res, hres⟩ := fullStore_none_terminates total (ceilDiv total 100) initState
      rfl htotal (by unfold ceilDiv; unfold initState; dsimp; omega)
    refine ⟨res, hres, ?_⟩
    have := searchLoop_ok_calls_le (fullStore total) none (ceilDiv total 100) initState res hres
    simpa [initState] using this

/-- Witness for the amended C1 theorem at concrete inputs. -/
theorem offset_walk_termination_amended_witness :
    (List.Chain' advanceRel [(⟨0, 100, 1⟩ : FetchCall)] ∧
      (∀ c ∈ ([(⟨0, 100, 1⟩ : FetchCall)]).head?, c.startAt = 0) ∧
      (([(⟨0, 100, 1⟩ : FetchCall)]).map FetchCall.startAt).Pairwise (· < ·)) ∧
    (∃ res, search_issues_v3 (fullStore 1) none (ceilDiv 1 100) = .ok res ∧
      res.calls.length ≤ ceilDiv 1 100) := by
  constructor
  · exact offset_walk_termination_amended.1 (fullStore 1) none 1
      ⟨[mkIssue 0], 0, [⟨0, 100, 1⟩]⟩ (by decide)
  · exact offset_walk_termination_amended.2 1 (by decide)

/-- C2: an identifier already observed earlier in the run is dropped from
its batch and never processed again — the returned issue list always has
pairwise distinct keys — and concretely, against `overlapStore` (whose
second page re-returns the already seen record 0), the repeat is counted
in the duplicate tally (1) rather than in the returned issues; the
orchestrator therefore processes it once: `processed = 2`, `updated = 2`,
`errors = 0`, with exactly one mutation per distinct record, so the
duplicate (reported via the duplicate count) is distinguishable from a
genuine error (reported via `errors`). -/
theorem dedup_no_reprocessing :
    (∀ (store : Store) (mr : Option Nat) (fuel : Nat) (res : SearchResult),
        search_issues_v3 store mr fuel = .ok res →
        (res.issues.map Issue.key).Nodup) ∧
    search_issues_v3 overlapStore none 10 =
      .ok ⟨[⟨natKey 0, some "S-12345", none⟩, ⟨natKey 1, some "S-12345", none⟩], 1,
           [⟨0, 100, 1⟩, ⟨1, 100, 2⟩, ⟨3, 100, 0⟩]⟩ ∧
    main_run overlapStore (fun _ _ => true) false none 10 =
      .done ⟨2, 2, 0, 0⟩ [(natKey 0, ["S-12345"]), (natKey 1, ["S-12345"])] := by
  refine ⟨?_, by decide, by decide⟩
  intro store mr fuel res h
  exact (searchLoop_ok_inv store mr fuel initState seenInv_init callsInv_init res h).1

/-- Witness for C2's universally quantified part, at the `overlapStore`
run. -/
theorem dedup_no_reprocessing_witness :
    (([⟨natKey 0, some "S-12345", none⟩,
       ⟨natKey 1, some "S-12345", none⟩] : List Issue).map Issue.key).Nodup :=
  dedup_no_reprocessing.1 overlapStore none 10
    ⟨[⟨natKey 0, some "S-12345", none⟩, ⟨natKey 1, some "S-12345", none⟩], 1,
     [⟨0, 100, 1⟩, ⟨1, 100, 2⟩, ⟨3, 100, 0⟩]⟩ dedup_no_reprocessing.2.1

/-- The loop treats `max_results = some 0` exactly like `none`: both places
that consult the cap (`if max_results:` at lines 87 and 163) test Python
truthiness, and `0` is falsy. -/
lemma searchLoop_some_zero (store : Store) :
    ∀ (fuel : Nat) (st : SearchState),
      searchLoop store (some 0) fuel st = searchLoop store none fuel st := by
  intro fuel
  induction fuel with
  | zero => intro st; rfl
  | succ fuel ih =>
    intro st
    simp only [searchLoop]
    rw [show capCheck (some 0) st = some st from rfl, capCheck_none_eq]
    simp only [pyTruthyNat, bne_self_eq_false, Bool.false_eq_true, false_and, if_false, ih]

/-- C10: passing `max_results = 0` (e.g. via `--max-results 0`) is treated
as if no cap were given at all — the run is identical to the uncapped run
and fetches every matching record (concretely, 3 of 3 for a store of 3
records) instead of processing zero records. -/
theorem max_results_zero_uncapped :
    (∀ (store : Store) (fuel : Nat),
        search_issues_v3 store (some 0) fuel = search_issues_v3 store none fuel) ∧
    search_issues_v3 (fullStore 3) (some 0) 5 =
      .ok ⟨[mkIssue 0, mkIssue 1, mkIssue 2], 0, [⟨0, 100, 3⟩]⟩ := by
  refine ⟨?_, by decide⟩
  intro store fuel
  exact searchLoop_some_zero store fuel initState

lemma ceilDiv_sub_one (len p : Nat) (hp : 1 ≤ p) (hl : 1 ≤ len) :
    ceilDiv (len - p) p + 1 = ceilDiv len p := by
  unfold ceilDiv
  rcases le_or_lt len p with hle | hlt
  · have h0 : len - p = 0 := by omega
    rw [h0]
    rw [show 0 + p - 1 = p - 1 from by omega, Nat.div_eq_of_lt (by omega)]
    rw [show len + p - 1 = (len - 1) + p from by omega, Nat.add_div_right _ (by omega)]
    rw [Nat.div_eq_of_lt (by omega : len - 1 < p)]
  · rw [show len - p + p - 1 = (len - 1 - p) + p from by omega,
      Nat.add_div_right _ (by omega)]
    rw [show len + p - 1 = (len - 1) + p from by omega, Nat.add_div_right _ (by omega)]
    have h5 : (len - 1) / p = (len - 1 - p) / p + 1 := by
      rw [show len - 1 = (len - 1 - p) + p from by omega, Nat.add_div_right _ (by omega)]
      rw [show len - 1 - p + p - p = len - 1 - p from by omega]
    omega

lemma restart_drain_count (p : Nat) (hp : 1 ≤ p) :
    ∀ (fuel : Nat) (recs : List Issue), ceilDiv recs.length p + 1 ≤ fuel →
      restart_drain p fuel recs = some (ceilDiv recs.length p + 1, recs) := by
  intro fuel
  induction fuel with
  | zero =>
    intro recs h
    omega
  | succ fuel ih =>
    intro recs hfuel
    cases recs with
    | nil =>
      unfold restart_drain
      simp only [List.take_nil, List.isEmpty_nil, if_true]
      rw [show ceilDiv ([] : List Issue).length p = 0 from by
        unfold ceilDiv
        simp only [List.length_nil]
        rw [show 0 + p - 1 = p - 1 from by omega]
        exact Nat.div_eq_of_lt (by omega)]
    | cons a rest =>
      have hl1 : 1 ≤ (a :: rest).length := by simp
      have hne : ((a :: rest).take p).isEmpty = false := by
        cases p with
        | zero => omega
        | succ p2 => simp [List.take_succ_cons]
      have hbound : ceilDiv ((a :: rest).drop p).length p + 1 ≤ fuel := by
        rw [List.length_drop, ceilDiv_sub_one _ p hp hl1]
        omega
      unfold restart_drain
      simp only [hne, Bool.false_eq_true, if_false]
      rw [ih _ hbound]
      dsimp only
      rw [List.length_drop, ceilDiv_sub_one _ p hp hl1, List.take_append_drop]

lemma ceilDiv_le_self (len p : Nat) (hp : 1 ≤ p) : ceilDiv len p ≤ len := by
  unfold ceilDiv
  rw [Nat.div_le_iff_le_mul_add_pred (by omega)]
  have := Nat.le_mul_of_pos_left len (show 0 < p by omega)
  omega

/-- C3 counterexample: with page size 2 (≥ 1) and N = 2 matching records,
the restart-drain walk terminates after 2 fetch calls (one full batch plus
the terminating empty fetch), not the claimed N + 1 = 3: each fetch removes
a whole batch of up to `pageSize` records, so N + 1 calls occur only when
`pageSize = 1`. -/
theorem restart_drain_count_counterexample :
    restart_drain 2 3 [mkIssue 0, mkIssue 1] = some (2, [mkIssue 0, mkIssue 1]) ∧
    (2 : Nat) ≠ 2 + 1 := ⟨by decide, by decide⟩

/-- C3 (amended, modelled from the spec): against a store whose result set
shrinks by exactly one per successful mutation, the restart-drain policy
(fetch up to `pageSize` records from offset 0, never advancing an offset,
no deduplication) terminates after exactly `ceil(N / pageSize) + 1` fetch
calls for `N` matching records — the nonempty batches followed by one
terminating empty fetch — processing every record exactly once and in
order; when `pageSize = 1` this is the claimed `N + 1`. -/
theorem restart_drain_convergence_amended :
    ∀ (p : Nat) (recs : List Issue), 1 ≤ p →
      restart_drain p (recs.length + 1) recs
        = some (ceilDiv recs.length p + 1, recs) ∧
      (p = 1 → ceilDiv recs.length p + 1 = recs.length + 1) := by
  intro p recs hp
  constructor
  · exact restart_drain_count p hp (recs.length + 1) recs
      (by have := ceilDiv_le_self recs.length p hp; omega)
  · intro hp1
    subst hp1
    unfold ceilDiv
    simp

/-- Witness for the amended C3 theorem: page size 1 with two records takes
exactly 2 + 1 = 3 fetch calls. -/
theorem restart_drain_convergence_amended_witness :
    restart_drain 1 ([mkIssue 0, mkIssue 1].length + 1) [mkIssue 0, mkIssue 1]
      = some (ceilDiv [mkIssue 0, mkIssue 1].length 1 + 1, [mkIssue 0, mkIssue 1]) ∧
    (1 = 1 → ceilDiv [mkIssue 0, mkIssue 1].length 1 + 1 = [mkIssue 0, mkIssue 1].length + 1) :=
  restart_drain_convergence_amended 1 [mkIssue 0, mkIssue 1] (by decide)

lemma process_no_source (m : String → List String → Bool) (issue : Issue) (d : Bool)
    (h : pyTruthyStr issue.source = false) :
    process_issue m issue d =
      ({ key := issue.key, success := false,
         message := "No value in " ++ SOURCE_FIELD,
         source_value := issue.source, updated := false }, []) := by
  simp only [process_issue]
  split
  · rfl
  · rename_i hc
    exact absurd h hc

lemma process_invalid (m : String → List String → Bool) (issue : Issue) (d : Bool)
    (h1 : pyTruthyStr issue.source = true)
    (h2 : validate_value (pyStrip (issue.source.getD "")) = false) :
    process_issue m issue d =
      ({ key := issue.key, success := false,
         message := "Value " ++ pyStrip (issue.source.getD "") ++ " does not match pattern",
         source_value := issue.source, updated := false }, []) := by
  simp only [process_issue]
  rw [if_neg (by simp [h1]), if_pos h2]

lemma process_already_present (m : String → List String → Bool) (issue : Issue) (d : Bool)
    (h1 : pyTruthyStr issue.source = true)
    (h2 : validate_value (pyStrip (issue.source.getD "")) = true)
    (h3 : pyTruthyList issue.target = true)
    (h4 : pyStrip (issue.source.getD "") ∈ issue.target.getD []) :
    process_issue m issue d =
      ({ key := issue.key, success := true,
         message := "Value " ++ pyStrip (issue.source.getD "")
           ++ " already exists in target field",
         source_value := issue.source, updated := false }, []) := by
  simp only [process_issue]
  rw [if_neg (by simp [h1]), if_neg (by simp [h2]), if_pos h3, if_pos h4]

lemma process_dry (m : String → List String → Bool) (issue : Issue)
    (h1 : pyTruthyStr issue.source = true)
    (h2 : validate_value (pyStrip (issue.source.getD "")) = true)
    (h3 : ¬(pyTruthyList issue.target = true ∧
        pyStrip (issue.source.getD "") ∈ issue.target.getD [])) :
    process_issue m issue true =
      ({ key := issue.key, success := true,
         message := "[DRY RUN] Would update " ++ TARGET_FIELD,
         source_value := issue.source, updated := false }, []) := by
  simp only [process_issue]
  rw [if_neg (by simp [h1]), if_neg (by simp [h2])]
  by_cases h5 : pyTruthyList issue.target = true
  · rw [if_pos h5, if_neg (fun hmem => h3 ⟨h5, hmem⟩), if_pos trivial]
  · rw [if_neg h5, if_pos trivial]

lemma process_live (m : String → List String → Bool) (issue : Issue)
    (h1 : pyTruthyStr issue.source = true)
    (h2 : validate_value (pyStrip (issue.source.getD "")) = true)
    (h3 : ¬(pyTruthyList issue.target = true ∧
        pyStrip (issue.source.getD "") ∈ issue.target.getD [])) :
    process_issue m issue false =
      (if m issue.key (newValueOf issue) then
        ({ key := issue.key, success := true,
           message := "Successfully updated " ++ TARGET_FIELD ++ " with "
             ++ pyStrip (issue.source.getD ""),
           source_value := issue.source, updated := true },
         [(issue.key, newValueOf issue)])
      else
        ({ key := issue.key, success := false, message := "Jira API error",
           source_value := issue.source, updated := false },
         [(issue.key, newValueOf issue)])) := by
  simp only [process_issue]
  rw [if_neg (by simp [h1]), if_neg (by simp [h2])]
  by_cases h5 : pyTruthyList issue.target = true
  · rw [if_pos h5, if_neg (fun hmem => h3 ⟨h5, hmem⟩),
      if_neg (by simp : ¬(false = true))]
    have hnv : newValueOf issue
        = issue.target.getD [] ++ [pyStrip (issue.source.getD "")] := by
      unfold newValueOf
      rw [if_pos h5]
    rw [hnv]
  · rw [if_neg h5, if_neg (by simp : ¬(false = true))]
    have hnv : newValueOf issue = [pyStrip (issue.source.getD "")] := by
      unfold newValueOf
      rw [if_neg h5]
    rw [hnv]

lemma mem_newValueOf (issue : Issue) :
    pyStrip (issue.source.getD "") ∈ newValueOf issue := by
  unfold newValueOf
  split <;> simp

lemma newValueOf_ne_nil (issue : Issue) : newValueOf issue ≠ [] := by
  unfold newValueOf
  split <;> simp

/-- A mutation is issued exactly on the valid-and-not-yet-present live
path, and it is the single update of the target field with
`newValueOf issue`. -/
lemma process_mutations_shape (m : String → List String → Bool) (issue : Issue)
    (k : String) (nv : List String)
    (h : (process_issue m issue false).2 = [(k, nv)]) :
    pyTruthyStr issue.source = true ∧
    validate_value (pyStrip (issue.source.getD "")) = true ∧
    ¬(pyTruthyList issue.target = true ∧
        pyStrip (issue.source.getD "") ∈ issue.target.getD []) ∧
    k = issue.key ∧ nv = newValueOf issue := by
  by_cases h1 : pyTruthyStr issue.source = true
  · by_cases h2 : validate_value (pyStrip (issue.source.getD "")) = true
    · by_cases h3 : pyTruthyList issue.target = true ∧
          pyStrip (issue.source.getD "") ∈ issue.target.getD []
      · rw [process_already_present m issue false h1 h2 h3.1 h3.2] at h
        exact absurd h (by simp)
      · rw [process_live m issue h1 h2 h3] at h
        refine ⟨h1, h2, h3, ?_⟩
        split at h <;>
          · simp only [List.cons.injEq, Prod.mk.injEq, and_true] at h
            exact ⟨h.1.symm, h.2.symm⟩
    · rw [process_invalid m issue false h1 (by rwa [Bool.not_eq_true] at h2)] at h
      exact absurd h (by simp)
  · rw [process_no_source m issue false (by rwa [Bool.not_eq_true] at h1)] at h
    exact absurd h (by simp)

/-- C4: on the valid-source path the new target value is the set-union of
the existing values with the validated value.  (i) If the value is already
present, processing succeeds without update and issues no mutation, so the
value is never double-inserted.  (ii) If it is absent, the issued mutation
appends it to the existing values, preserving them.  (iii) Concretely,
pre-existing target `["X"]` with source `"S-54321"` yields
`["X", "S-54321"]`, not `["S-54321"]` alone.  (iv) Processing the same
record again after its mutation is an idempotent no-op: success without
update and no second mutation. -/
theorem target_union_mutation :
    (∀ (m : String → List String → Bool) (issue : Issue),
        pyTruthyStr issue.source = true →
        validate_value (pyStrip (issue.source.getD "")) = true →
        pyTruthyList issue.target = true →
        pyStrip (issue.source.getD "") ∈ issue.target.getD [] →
          (process_issue m issue false).1.success = true ∧
          (process_issue m issue false).1.updated = false ∧
          (process_issue m issue false).2 = []) ∧
    (∀ (m : String → List String → Bool) (issue : Issue),
        pyTruthyStr issue.source = true →
        validate_value (pyStrip (issue.source.getD "")) = true →
        pyTruthyList issue.target = true →
        pyStrip (issue.source.getD "") ∉ issue.target.getD [] →
          (process_issue m issue false).2
            = [(issue.key, issue.target.getD [] ++ [pyStrip (issue.source.getD "")])]) ∧
    (process_issue (fun _ _ => true) ⟨"K", some "S-54321", some ["X"]⟩ false).2
      = [("K", ["X", "S-54321"])] ∧
    (∀ (m : String → List String → Bool) (issue : Issue) (k : String) (nv : List String),
        (process_issue m issue false).2 = [(k, nv)] →
          (process_issue m { issue with target := some nv } false).1.success = true ∧
          (process_issue m { issue with target := some nv } false).1.updated = false ∧
          (process_issue m { issue with target := some nv } false).2 = []) := by
  refine ⟨?_, ?_, by decide, ?_⟩
  · intro m issue h1 h2 h3 h4
    rw [process_already_present m issue false h1 h2 h3 h4]
    exact ⟨rfl, rfl, rfl⟩
  · intro m issue h1 h2 h3 h4
    rw [process_live m issue h1 h2 (fun hc => h4 hc.2)]
    have hnv : newValueOf issue
        = issue.target.getD [] ++ [pyStrip (issue.source.getD "")] := by
      unfold newValueOf
      rw [if_pos h3]
    rw [hnv]
    split <;> rfl
  · intro m issue k nv h
    obtain ⟨h1, h2, h3, hk, hnv⟩ := process_mutations_shape m issue k nv h
    subst hnv
    have h1' : pyTruthyStr ({ issue with target := some (newValueOf issue) } : Issue).source
        = true := h1
    have h2' : validate_value
        (pyStrip (({ issue with target := some (newValueOf issue) } : Issue).source.getD ""))
        = true := h2
    have h3' : pyTruthyList ({ issue with target := some (newValueOf issue) } : Issue).target
        = true := by
      simp only [pyTruthyList]
      simpa using newValueOf_ne_nil issue
    have h4' : pyStrip (({ issue with target := some (newValueOf issue) } : Issue).source.getD "")
        ∈ ({ issue with target := some (newValueOf issue) } : Issue).target.getD [] := by
      simpa using mem_newValueOf issue
    rw [process_already_present m _ false h1' h2' h3' h4']
    exact ⟨rfl, rfl, rfl⟩

/-- Witness for C4 at concrete inputs: the already-present no-op and the
idempotence of a completed mutation. -/
theorem target_union_mutation_witness :
    ((process_issue (fun _ _ => true) ⟨"K", some "S-54321", some ["X", "S-54321"]⟩ false).1.success = true ∧
     (process_issue (fun _ _ => true) ⟨"K", some "S-54321", some ["X", "S-54321"]⟩ false).1.updated = false ∧
     (process_issue (fun _ _ => true) ⟨"K", some "S-54321", some ["X", "S-54321"]⟩ false).2 = []) ∧
    ((process_issue (fun _ _ => true)
        { (⟨"K", some "S-54321", some ["X"]⟩ : Issue) with target := some ["X", "S-54321"] } false).1.success = true ∧
     (process_issue (fun _ _ => true)
        { (⟨"K", some "S-54321", some ["X"]⟩ : Issue) with target := some ["X", "S-54321"] } false).1.updated = false ∧
     (process_issue (fun _ _ => true)
        { (⟨"K", some "S-54321", some ["X"]⟩ : Issue) with target := some ["X", "S-54321"] } false).2 = []) :=
  ⟨target_union_mutation.1 (fun _ _ => true) ⟨"K", some "S-54321", some ["X", "S-54321"]⟩
      (by decide) (by decide) (by decide) (by decide),
   target_union_mutation.2.2.2 (fun _ _ => true) ⟨"K", some "S-54321", some ["X"]⟩
      "K" ["X", "S-54321"] (by decide)⟩

/-- In dry-run mode no branch of `process_issue` issues a mutation or
reports an update. -/
lemma process_dry_pure (m : String → List String → Bool) (issue : Issue) :
    (process_issue m issue true).2 = [] ∧
    (process_issue m issue true).1.updated = false := by
  by_cases h1 : pyTruthyStr issue.source = true
  · by_cases h2 : validate_value (pyStrip (issue.source.getD "")) = true
    · by_cases h3 : pyTruthyList issue.target = true ∧
          pyStrip (issue.source.getD "") ∈ issue.target.getD []
      · rw [process_already_present m issue true h1 h2 h3.1 h3.2]
        exact ⟨rfl, rfl⟩
      · rw [process_dry m issue h1 h2 h3]
        exact ⟨rfl, rfl⟩
    · rw [process_invalid m issue true h1 (by rwa [Bool.not_eq_true] at h2)]
      exact ⟨rfl, rfl⟩
  · rw [process_no_source m issue true (by rwa [Bool.not_eq_true] at h1)]
    exact ⟨rfl, rfl⟩

lemma processIssues_dry_results (m : String → List String → Bool)
    (issues : List Issue) :
    ∀ r ∈ (processIssues m issues true).1, r.updated = false := by
  induction issues with
  | nil => intro r hr; simp [processIssues] at hr
  | cons i rest ih =>
    intro r hr
    simp only [processIssues, List.mem_cons] at hr
    rcases hr with hr | hr
    · rw [hr]
      exact (process_dry_pure m i).2
    · exact ih r hr

lemma processIssues_dry_mutations (m : String → List String → Bool)
    (issues : List Issue) :
    (processIssues m issues true).2 = [] := by
  induction issues with
  | nil => rfl
  | cons i rest ih =>
    simp only [processIssues]
    rw [(process_dry_pure m i).1, ih]
    rfl

lemma processIssues_length (m : String → List String → Bool)
    (issues : List Issue) (d : Bool) :
    (processIssues m issues d).1.length = issues.length := by
  induction issues with
  | nil => rfl
  | cons i rest ih => simp [processIssues, ih]

/-- The four counters as functions of the per-record results: `processed`
counts every result, `updated` the successful updates, `skipped` the
successes without update, `errors` the non-successes. -/
lemma tally_fields (rs : List ProcResult) : ∀ c0 : RunCounters,
    (rs.foldl countersStep c0).processed = c0.processed + rs.length ∧
    (rs.foldl countersStep c0).updated
      = c0.updated + (rs.filter (fun r => r.success && r.updated)).length ∧
    (rs.foldl countersStep c0).skipped
      = c0.skipped + (rs.filter (fun r => r.success && !r.updated)).length ∧
    (rs.foldl countersStep c0).errors
      = c0.errors + (rs.filter (fun r => !r.success)).length := by
  induction rs with
  | nil => intro c0; simp
  | cons r rest ih =>
    intro c0
    obtain ⟨ihp, ihu, ihs, ihe⟩ := ih (countersStep c0 r)
    simp only [List.foldl_cons]
    rw [ihp, ihu, ihs, ihe]
    cases hs : r.success <;> cases hu : r.updated <;>
      simp [countersStep, hs, hu, List.filter_cons] <;> omega

/-- C6: dry-run purity.  (i) For every record, processing with
dryRun = true issues no mutation and reports `updated = false`.  (ii) A
record that would be mutated in live mode instead yields success without
update in dry-run mode.  (iii) At the run level, a dry run's final
counters always report `updated = 0` and the run issues no mutation at
all. -/
theorem dry_run_purity :
    (∀ (m : String → List String → Bool) (issue : Issue),
        (process_issue m issue true).2 = [] ∧
        (process_issue m issue true).1.updated = false) ∧
    (∀ (m : String → List String → Bool) (issue : Issue),
        (process_issue m issue false).2 ≠ [] →
          (process_issue m issue true).1.success = true ∧
          (process_issue m issue true).1.updated = false) ∧
    (∀ (store : Store) (m : String → List String → Bool) (mr : Option Nat)
        (fuel : Nat) (c : RunCounters) (ms : List Mutation),
        main_run store m true mr fuel = .done c ms →
          c.updated = 0 ∧ ms = []) := by
  refine ⟨process_dry_pure, ?_, ?_⟩
  · intro m issue hlive
    by_cases h1 : pyTruthyStr issue.source = true
    · by_cases h2 : validate_value (pyStrip (issue.source.getD "")) = true
      · by_cases h3 : pyTruthyList issue.target = true ∧
            pyStrip (issue.source.getD "") ∈ issue.target.getD []
        · rw [process_already_present m issue false h1 h2 h3.1 h3.2] at hlive
          exact absurd rfl hlive
        · rw [process_dry m issue h1 h2 h3]
          exact ⟨rfl, rfl⟩
      · rw [process_invalid m issue false h1 (by rwa [Bool.not_eq_true] at h2)] at hlive
        exact absurd rfl hlive
    · rw [process_no_source m issue false (by rwa [Bool.not_eq_true] at h1)] at hlive
      exact absurd rfl hlive
  · intro store m mr fuel c ms h
    unfold main_run at h
    cases hs : search_issues_v3 store mr fuel with
    | transportError e cs =>
      rw [hs] at h
      exact absurd h (by simp)
    | outOfFuel =>
      rw [hs] at h
      exact absurd h (by simp)
    | ok res =>
      rw [hs] at h
      dsimp only at h
      by_cases hz : res.issues.length = 0
      · rw [if_pos hz] at h
        injection h with h1 h2
        subst h1
        subst h2
        exact ⟨rfl, rfl⟩
      · rw [if_neg hz] at h
        injection h with h1 h2
        subst h1
        subst h2
        constructor
        · have hfields := tally_fields (processIssues m res.issues true).1 ⟨0, 0, 0, 0⟩
          rw [tally, hfields.2.1]
          have hfil : ((processIssues m res.issues true).1.filter
              (fun r => r.success && r.updated)) = [] := by
            rw [List.filter_eq_nil_iff]
            intro r hr
            rw [processIssues_dry_results m res.issues r hr]
            simp
          rw [hfil]
          rfl
        · exact processIssues_dry_mutations m res.issues

/-- Witness for C6 at a concrete dry run (one issue with a valid source):
the live run would mutate, the dry run does not. -/
theorem dry_run_purity_witness :
    ((process_issue (fun _ _ => true) ⟨"K", some "S-54321", none⟩ true).2 = [] ∧
     (process_issue (fun _ _ => true) ⟨"K", some "S-54321", none⟩ true).1.updated = false) ∧
    ((process_issue (fun _ _ => true) ⟨"K", some "S-54321", none⟩ true).1.success = true ∧
     (process_issue (fun _ _ => true) ⟨"K", some "S-54321", none⟩ true).1.updated = false) ∧
    ((⟨2, 0, 2, 0⟩ : RunCounters).updated = 0 ∧ ([] : List Mutation) = []) :=
  ⟨dry_run_purity.1 (fun _ _ => true) ⟨"K", some "S-54321", none⟩,
   dry_run_purity.2.1 (fun _ _ => true) ⟨"K", some "S-54321", none⟩ (by decide),
   dry_run_purity.2.2 overlapStore (fun _ _ => true) none 10 ⟨2, 0, 2, 0⟩ [] (by decide)⟩

/-- C7 counterexample: a record with a missing source value is counted in
`errors` (its result has `success = false`), not in `skipped` as the claim
states — after processing one such record the counters are
`processed = 1, updated = 0, skipped = 0, errors = 1`. -/
theorem skip_classification_counterexample :
    tally [(process_issue (fun _ _ => true) ⟨"K", none, none⟩ false).1]
      = ⟨1, 0, 0, 1⟩ := by decide

/-- C7 (amended): per-record failures are non-fatal — every record yields
a result and the run continues to the next — but the classification is:
a missing/empty source value, a source value failing validation, and a
mutation failure all produce `success = false` and are counted in
`errors`; the `skipped` counter instead counts successes without update
(value already present, or dry run).  The counters satisfy:
`processed` counts every record, `errors` the non-successes, `skipped`
the successes without update. -/
theorem error_classification_amended :
    (∀ (m : String → List String → Bool) (issues : List Issue) (d : Bool),
        (processIssues m issues d).1.length = issues.length) ∧
    (∀ (m : String → List String → Bool) (issue : Issue),
        pyTruthyStr issue.source = false →
        (process_issue m issue false).1.success = false) ∧
    (∀ (m : String → List String → Bool) (issue : Issue),
        pyTruthyStr issue.source = true →
        validate_value (pyStrip (issue.source.getD "")) = false →
        (process_issue m issue false).1.success = false) ∧
    (∀ (m : String → List String → Bool) (issue : Issue) (k : String) (nv : List String),
        (process_issue m issue false).2 = [(k, nv)] → m k nv = false →
        (process_issue m issue false).1.success = false) ∧
    (∀ rs : List ProcResult,
        (tally rs).processed = rs.length ∧
        (tally rs).errors = (rs.filter (fun r => !r.success)).length ∧
        (tally rs).skipped = (rs.filter (fun r => r.success && !r.updated)).length) := by
  refine ⟨processIssues_length, ?_, ?_, ?_, ?_⟩
  · intro m issue h
    rw [process_no_source m issue false h]
  · intro m issue h1 h2
    rw [process_invalid m issue false h1 h2]
  · intro m issue k nv h hm
    obtain ⟨h1, h2, h3, hk, hnv⟩ := process_mutations_shape m issue k nv h
    subst hk
    subst hnv
    rw [process_live m issue h1 h2 h3, if_neg (by rw [hm]; simp)]
  · intro rs
    have hfields := tally_fields rs ⟨0, 0, 0, 0⟩
    exact ⟨by rw [tally, hfields.1]; simp, by rw [tally, hfields.2.2.2]; simp,
      by rw [tally, hfields.2.2.1]; simp⟩

/-- Witness for the amended C7 theorem at concrete inputs: a no-source
record, an invalid record, a failing mutation, and the counters of a
mixed run. -/
theorem error_classification_amended_witness :
    (processIssues (fun _ _ => true)
        [⟨"A", none, none⟩, ⟨"B", some "bad", none⟩] false).1.length
      = ([⟨"A", none, none⟩, ⟨"B", some "bad", none⟩] : List Issue).length ∧
    (process_issue (fun _ _ => true) ⟨"A", none, none⟩ false).1.success = false ∧
    (process_issue (fun _ _ => true) ⟨"B", some "bad", none⟩ false).1.success = false ∧
    (process_issue (fun _ _ => false) ⟨"C", some "S-12345", none⟩ false).1.success = false :=
  ⟨error_classification_amended.1 (fun _ _ => true)
      [⟨"A", none, none⟩, ⟨"B", some "bad", none⟩] false,
   error_classification_amended.2.1 (fun _ _ => true) ⟨"A", none, none⟩ (by decide),
   error_classification_amended.2.2.1 (fun _ _ => true) ⟨"B", some "bad", none⟩
      (by decide) (by decide),
   error_classification_amended.2.2.2.1 (fun _ _ => false) ⟨"C", some "S-12345", none⟩
      "C" ["S-12345"] (by decide) (by decide)⟩

/-- C8: when a fetch receives a non-success response, the loop raises the
transport error immediately — the error value carries the offending
request's identifying details (status, the request's `startAt` and
`maxResults`, and the response body), the trace shows no retry (the failing
request is the last), and `main` turns the escaped exception into a
non-zero process exit. -/
theorem transport_error_abort :
    (∀ (store : Store) (mr : Option Nat) (fuel : Nat) (st st1 : SearchState),
        capCheck mr st = some st1 →
        (store st1.startAt st1.pageSize).status ≠ 200 →
        searchLoop store mr (fuel + 1) st =
          .transportError
            ⟨(store st1.startAt st1.pageSize).status, st1.startAt, st1.pageSize,
              (store st1.startAt st1.pageSize).body⟩
            (st1.calls ++ [⟨st1.startAt, st1.pageSize,
              (store st1.startAt st1.pageSize).issues.length⟩])) ∧
    (∀ (store : Store) (m : String → List String → Bool) (dry : Bool)
        (mr : Option Nat) (fuel : Nat) (st1 : SearchState),
        capCheck mr initState = some st1 →
        (store st1.startAt st1.pageSize).status ≠ 200 →
        main_run store m dry mr (fuel + 1) = .exitNonZero) := by
  have hloop : ∀ (store : Store) (mr : Option Nat) (fuel : Nat) (st st1 : SearchState),
      capCheck mr st = some st1 →
      (store st1.startAt st1.pageSize).status ≠ 200 →
      searchLoop store mr (fuel + 1) st =
        .transportError
          ⟨(store st1.startAt st1.pageSize).status, st1.startAt, st1.pageSize,
            (store st1.startAt st1.pageSize).body⟩
          (st1.calls ++ [⟨st1.startAt, st1.pageSize,
            (store st1.startAt st1.pageSize).issues.length⟩]) := by
    intro store mr fuel st st1 hcap h200
    simp only [searchLoop, hcap]
    rw [if_pos h200]
    rfl
  refine ⟨hloop, ?_⟩
  intro store m dry mr fuel st1 hcap h200
  unfold main_run search_issues_v3
  rw [hloop store mr fuel initState st1 hcap h200]

/-- Witness for C8: a store answering 500/"boom" makes the first fetch
raise the transport error with its request details, and the run exits
non-zero. -/
theorem transport_error_abort_witness :
    searchLoop errStore none 5 initState =
      .transportError ⟨500, 0, 100, "boom"⟩ [⟨0, 100, 0⟩] ∧
    main_run errStore (fun _ _ => true) false none 5 = .exitNonZero :=
  ⟨transport_error_abort.1 errStore none 4 initState initState rfl (by decide),
   transport_error_abort.2 errStore (fun _ _ => true) false none 4 initState rfl (by decide)⟩

lemma natKey_length (n : Nat) : (natKey n).length = n := by
  induction n with
  | zero => rfl
  | succ n ih =>
    simp only [natKey, String.length_append, ih]
    have h1 : ("a" : String).length = 1 := rfl
    omega

lemma natKey_injective : Function.Injective natKey := by
  intro a b h
  have := congrArg String.length h
  rwa [natKey_length, natKey_length] at this

lemma idxIssues_map_key (s l : Nat) :
    (idxIssues s l).map Issue.key = (List.range l).map (fun i => natKey (s + i)) := by
  simp [idxIssues, mkIssue, Function.comp]

lemma idxIssues_key_nodup (s l : Nat) : ((idxIssues s l).map Issue.key).Nodup := by
  rw [idxIssues_map_key]
  exact (List.nodup_range l).map
    (fun a b hab => by have := natKey_injective hab; omega)

lemma idxIssues_key_fresh (n l : Nat) :
    ∀ i ∈ idxIssues n l, i.key ∉ seenOf n := by
  intro i hi hmem
  simp only [idxIssues, List.mem_map, List.mem_range] at hi
  obtain ⟨j, hj, hij⟩ := hi
  simp only [seenOf, List.mem_reverse, List.mem_map, List.mem_range] at hmem
  obtain ⟨k, hk, hkey⟩ := hmem
  rw [← hij] at hkey
  have : k = n + j := natKey_injective (by simpa [mkIssue] using hkey)
  omega

lemma idxIssues_append (s a b : Nat) :
    idxIssues s a ++ idxIssues (s + a) b = idxIssues s (a + b) := by
  unfold idxIssues
  rw [List.range_add, List.map_append, List.map_map]
  congr 1
  apply List.map_congr_left
  intro x hx
  simp only [Function.comp]
  have h1 : s + a + x = s + (a + x) := by omega
  rw [h1]

lemma seenOf_append (n l : Nat) :
    ((idxIssues n l).map Issue.key).reverse ++ seenOf n = seenOf (n + l) := by
  unfold seenOf
  rw [idxIssues_map_key, List.range_add, List.map_append, List.reverse_append, List.map_map]
  rfl

/-- Folding the dedup step over a batch of fresh, pairwise distinct keys
appends the whole batch and records all its keys as seen. -/
lemma foldl_dedupStep_all_new (b : List Issue) :
    ∀ (st : SearchState), (∀ i ∈ b, i.key ∉ st.seenKeys) →
      ((b.map Issue.key).Nodup) →
      b.foldl dedupStep st =
        { st with allIssues := st.allIssues ++ b,
                  seenKeys := (b.map Issue.key).reverse ++ st.seenKeys } := by
  induction b with
  | nil => intro st _ _; simp
  | cons i rest ih =>
    intro st hdisj hnd
    rw [List.map_cons, List.nodup_cons] at hnd
    have hstep : dedupStep st i = { st with allIssues := st.allIssues ++ [i], seenKeys := i.key :: st.seenKeys } := by
      unfold dedupStep
      rw [if_neg (hdisj i (List.mem_cons_self i rest))]
    simp only [List.foldl_cons]
    rw [hstep, ih _ ?_ ?_]
    · simp only [List.map_cons, List.reverse_cons]
      congr 1
      · simp
      · simp
    · intro j hj
      simp only [List.mem_cons]
      rintro (hkey | hkey)
      · exact hnd.1 (hkey ▸ List.mem_map_of_mem Issue.key hj)
      · exact hdisj j (List.mem_cons_of_mem i hj) hkey
    · exact hnd.2

/-- Cap enforcement against the canonical full-page store: starting with
`n < c` collected records, the loop collects exactly the first `c` records,
every fetch requests exactly `min(100, c - collected)` records (never more
than the remaining capacity), and it performs exactly
`ceil((c - n) / 100)` further fetches. -/
lemma fullStore_cap_loop (total c : Nat) (hc : 0 < c) (hct : c ≤ total) :
    ∀ (fuel : Nat), ∀ (n ps dc : Nat) (cs : List FetchCall),
      n < c → c ≤ n + fuel * 100 →
      (∀ fc ∈ cs, fc.maxResults = min 100 (c - fc.startAt) ∧ fc.startAt < c) →
      ∃ res, searchLoop (fullStore total) (some c) fuel
          ⟨idxIssues 0 n, seenOf n, n, ps, dc, cs⟩ = .ok res ∧
        res.issues = idxIssues 0 c ∧
        res.calls.length = cs.length + ceilDiv (c - n) 100 ∧
        (∀ fc ∈ res.calls, fc.maxResults = min 100 (c - fc.startAt) ∧ fc.startAt < c) := by
  intro fuel
  induction fuel with
  | zero =>
    intro n ps dc cs h1 h2 _
    omega
  | succ fuel ih =>
    intro n ps dc cs h1 h2 hcs
    have hM1 : 1 ≤ min 100 (c - n) := by omega
    have hMle : min 100 (c - n) ≤ c - n := by omega
    have hcap : capCheck (some c) (⟨idxIssues 0 n, seenOf n, n, ps, dc, cs⟩ : SearchState)
        = some ⟨idxIssues 0 n, seenOf n, n, min 100 (c - n), dc, cs⟩ := by
      unfold capCheck
      rw [if_pos (show pyTruthyNat (some c) = true by simp [pyTruthyNat]; omega)]
      rw [if_neg (show ¬((some c).getD 0 ≤ (idxIssues 0 n).length) by
        rw [idxIssues_length]; simp; omega)]
      simp [idxIssues_length]
    have hmin : min (min 100 (c - n)) (total - n) = min 100 (c - n) := by omega
    have hresp : fullStore total n (min 100 (c - n))
        = ⟨200, "", idxIssues n (min 100 (c - n)), total⟩ := by
      unfold fullStore
      rw [hmin]
    have hfold : st3Of (⟨idxIssues 0 n, seenOf n, n, min 100 (c - n), dc, cs⟩ : SearchState)
        (⟨200, "", idxIssues n (min 100 (c - n)), total⟩ : HttpResponse)
        = ⟨idxIssues 0 (n + min 100 (c - n)), seenOf (n + min 100 (c - n)), n,
            min 100 (c - n), dc,
            cs ++ [⟨n, min 100 (c - n), min 100 (c - n)⟩]⟩ := by
      unfold st3Of st2Of
      dsimp only
      rw [foldl_dedupStep_all_new _ _ (idxIssues_key_fresh n _) (idxIssues_key_nodup n _)]
      dsimp only
      rw [show idxIssues 0 n ++ idxIssues n (min 100 (c - n))
          = idxIssues 0 (n + min 100 (c - n)) from by
        have := idxIssues_append 0 n (min 100 (c - n))
        simpa using this]
      rw [seenOf_append n (min 100 (c - n)), idxIssues_length]
    have hst4 : st4Of (⟨idxIssues 0 n, seenOf n, n, min 100 (c - n), dc, cs⟩ : SearchState)
        (⟨200, "", idxIssues n (min 100 (c - n)), total⟩ : HttpResponse)
        = ⟨idxIssues 0 (n + min 100 (c - n)), seenOf (n + min 100 (c - n)),
            n + min 100 (c - n), min 100 (c - n), dc,
            cs ++ [⟨n, min 100 (c - n), min 100 (c - n)⟩]⟩ := by
      unfold st4Of
      rw [hfold]
      dsimp only
      rw [idxIssues_length]
    simp only [searchLoop, hcap, okOf]
    rw [hresp, hst4, hfold]
    dsimp only
    rw [if_neg (show ¬(200 ≠ 200) by simp)]
    rw [if_neg (show ¬((idxIssues n (min 100 (c - n))).length = 0) by
      rw [idxIssues_length]; omega)]
    by_cases hstop : total ≤ n + min 100 (c - n)
    · have hnm : n + min 100 (c - n) = c := by omega
      rw [if_pos ⟨show (0 : Nat) < total by omega, hstop⟩]
      refine ⟨_, rfl, ?_, ?_, ?_⟩
      · dsimp only
        rw [hnm]
      · dsimp only
        rw [List.length_append, List.length_cons, List.length_nil]
        unfold ceilDiv
        omega
      · dsimp only
        intro fc hfc
        rcases List.mem_append.mp hfc with hfc | hfc
        · exact hcs fc hfc
        · rw [List.mem_singleton] at hfc
          subst hfc
          exact ⟨rfl, h1⟩
    · rw [if_neg (fun hcon => hstop hcon.2)]
      by_cases hfetch : c ≤ (idxIssues 0 (n + min 100 (c - n))).length
      · have hnm : n + min 100 (c - n) = c := by
          rw [idxIssues_length] at hfetch
          omega
        rw [if_pos ⟨show pyTruthyNat (some c) = true by simp [pyTruthyNat]; omega, hfetch⟩]
        refine ⟨_, rfl, ?_, ?_, ?_⟩
        · dsimp only
          rw [hnm]
        · dsimp only
          rw [List.length_append, List.length_cons, List.length_nil]
          unfold ceilDiv
          omega
        · dsimp only
          intro fc hfc
          rcases List.mem_append.mp hfc with hfc | hfc
          · exact hcs fc hfc
          · rw [List.mem_singleton] at hfc
            subst hfc
            exact ⟨rfl, h1⟩
      · rw [if_neg (fun hcon => hfetch hcon.2)]
        have hM100 : min 100 (c - n) = 100 := by
          rw [idxIssues_length] at hfetch
          omega
        rw [hM100]
        obtain ⟨res, hres, hiss, hlen, hprop⟩ :=
          ih (n + 100) 100 dc (cs ++ [⟨n, 100, 100⟩]) (by rw [idxIssues_length] at hfetch; omega)
            (by omega)
            (by
              intro fc hfc
              rcases List.mem_append.mp hfc with hfc | hfc
              · exact hcs fc hfc
              · rw [List.mem_singleton] at hfc
                subst hfc
                exact ⟨by dsimp only; omega, by dsimp only; omega⟩)
        refine ⟨res, hres, hiss, ?_, hprop⟩
        rw [hlen, List.length_append, List.length_cons, List.length_nil]
        unfold ceilDiv
        omega

lemma foldl_dedupStep_length_le (b : List Issue) :
    ∀ st : SearchState,
      (b.foldl dedupStep st).allIssues.length ≤ st.allIssues.length + b.length := by
  induction b with
  | nil => intro st; simp
  | cons i rest ih =>
    intro st
    simp only [List.foldl_cons, List.length_cons]
    refine le_trans (ih (dedupStep st i)) ?_
    unfold dedupStep
    split
    · dsimp only
      omega
    · dsimp only
      simp only [List.length_append, List.length_singleton]
      omega

lemma capCheck_some_cap (c : Nat) (st st1 : SearchState) (hc : 0 < c)
    (h : capCheck (some c) st = some st1) :
    st.allIssues.length < c ∧
    st1.pageSize = min 100 (c - st.allIssues.length) := by
  unfold capCheck at h
  rw [if_pos (show pyTruthyNat (some c) = true by simp [pyTruthyNat]; omega)] at h
  split at h
  · exact absurd h (by simp)
  · rename_i hlt
    injection h with h
    subst h
    simp only [Option.getD_some] at hlt
    exact ⟨by omega, rfl⟩

/-- With a truthy cap `c` and a store that never returns more records than
requested, the loop never collects more than `c` records. -/
lemma searchLoop_cap_le (store : Store) (c : Nat) (hc : 0 < c)
    (hstore : ∀ s l, (store s l).issues.length ≤ l) :
    ∀ (fuel : Nat) (st : SearchState), st.allIssues.length ≤ c →
      ∀ res, searchLoop store (some c) fuel st = .ok res →
        res.issues.length ≤ c := by
  intro fuel
  induction fuel with
  | zero =>
    intro st _ res h
    exact absurd h (by simp [searchLoop])
  | succ fuel ih =>
    intro st hinv res h
    simp only [searchLoop, okOf] at h
    split at h
    · injection h with h
      subst h
      exact hinv
    · rename_i st1 hcap
      obtain ⟨hA, -, -, -, -⟩ := capCheck_fields (some c) st st1 hcap
      obtain ⟨hlt, hps⟩ := capCheck_some_cap c st st1 hc hcap
      have hst4len : (st4Of st1 (store st1.startAt st1.pageSize)).allIssues.length ≤ c := by
        rw [st4Of_allIssues, st3Of, st2Of]
        refine le_trans (foldl_dedupStep_length_le _ _) ?_
        have hresp := hstore st1.startAt st1.pageSize
        rw [hps] at hresp
        simp only [hA]
        rw [hps]
        omega
      split at h
      · exact absurd h (by simp)
      · split at h
        · injection h with h
          subst h
          exact hst4len
        · split at h
          · injection h with h
            subst h
            exact hst4len
          · split at h
            · injection h with h
              subst h
              exact hst4len
            · exact ih _ hst4len res h

/-- C9: cap enforcement.  (i) For every store that never returns more
records than requested, a run with positive cap `c` collects at most `c`
records.  (ii) Against the canonical full-page store with at least `c`
matching records, the run collects exactly `c` records, stops fetching once
they are collected (exactly `ceil(c / 100)` fetch calls in total), and
every fetch requests exactly `min(pageSize, c - collected)` records — never
more than the remaining capacity. -/
theorem cap_enforcement :
    (∀ (store : Store) (c fuel : Nat) (res : SearchResult),
        0 < c →
        (∀ s l, (store s l).issues.length ≤ l) →
        search_issues_v3 store (some c) fuel = .ok res →
        res.issues.length ≤ c) ∧
    (∀ total c : Nat, 0 < c → c ≤ total →
        ∃ res, search_issues_v3 (fullStore total) (some c) c = .ok res ∧
          res.issues.length = c ∧
          res.calls.length = ceilDiv c 100 ∧
          (∀ fc ∈ res.calls, fc.maxResults = min 100 (c - fc.startAt) ∧ fc.startAt < c)) := by
  constructor
  · intro store c fuel res hc hstore h
    exact searchLoop_cap_le store c hc hstore fuel initState (by simp [initState]) res h
  · intro total c hc hct
    obtain ⟨res, hres, hiss, hlen, hprop⟩ :=
      fullStore_cap_loop total c hc hct c 0 100 0 [] hc (by omega)
        (by intro fc hfc; simp at hfc)
    refine ⟨res, hres, ?_, ?_, hprop⟩
    · rw [hiss, idxIssues_length]
    · rw [hlen]
      simp

/-- Witness for C9 at `cap = 5` with 10 matching records: the run collects
exactly 5 in one fetch requesting exactly 5. -/
theorem cap_enforcement_witness :
    (⟨idxIssues 0 5, 0, [⟨0, 5, 5⟩]⟩ : SearchResult).issues.length ≤ 5 ∧
    (∃ res, search_issues_v3 (fullStore 10) (some 5) 5 = .ok res ∧
      res.issues.length = 5 ∧
      res.calls.length = ceilDiv 5 100 ∧
      (∀ fc ∈ res.calls, fc.maxResults = min 100 (5 - fc.startAt) ∧ fc.startAt < 5)) :=
  ⟨cap_enforcement.1 (fullStore 10) 5 5 ⟨idxIssues 0 5, 0, [⟨0, 5, 5⟩]⟩ (by decide)
      (by intro s l; simp [fullStore]) (by decide),
   cap_enforcement.2 10 5 (by decide) (by decide)⟩
